import Mathlib

/-!
Verification development for the veo_clip_transitions repository.

The repository is a set of Python scripts that download an alphabetically
ordered list of video clips, join adjacent clips with a transition
(plain concatenation, fade in/out, crossfade, blend, slide, wipe,
ffmpeg xfade, or a Veo-generated interpolated bridge clip), and upload
the result.  This file gives a shallow embedding of the timing and
control-flow core of those scripts: clip placement on a shared timeline,
per-script total-duration accounting, the long-running-operation polling
loop of veo2_interpolation.py, and the temp-directory cleanup structure.

Durations are modelled as rationals; the Python floats are used only for
exact arithmetic (sums and differences of configured constants) in the
fragments the claims are about.
-/

/-- Clip metadata as the scripts consume it: the local file name used for
alphabetical ordering, the duration in seconds (`VideoFileClip.duration` or
ffprobe output), and the frame size in pixels (`clip.size`). -/
structure Clip where
  name : String
  duration : ℚ
  width : ℕ
  height : ℕ
deriving DecidableEq, Repr

/-- A clip placed on the shared timeline of a CompositeVideoClip: the clip
together with the start offset handed to `set_start` (seconds, may be
negative when the scripts subtract an unclamped transition duration). -/
structure Segment where
  clip : Clip
  start : ℚ
deriving DecidableEq, Repr

/-- Sum of the durations of a list of clips. -/
def durSum (clips : List Clip) : ℚ :=
  (clips.map Clip.duration).sum

/-- The realized temporal overlap between an earlier placed segment and the
next one: the end time of the earlier segment minus the start time of the
later one. -/
def segOverlap (s1 s2 : Segment) : ℚ :=
  s1.start + s1.clip.duration - s2.start

/-- Semantics of moviepy `concatenate_videoclips` (used by concatenation.py
line 50 and fade-in-out.py line 100): each clip is placed end to end, the
clip after a clip placed at time `t` starting at `t + duration`.  Returns
the placed segments together with the final cursor (total duration). -/
def concatPlace (t : ℚ) : List Clip → List Segment × ℚ
  | [] => ([], t)
  | c :: cs =>
    let rest := concatPlace (t + c.duration) cs
    (⟨c, t⟩ :: rest.1, rest.2)

/-- concatenation.py `process_gcs_videos_concat_only` step 2 (lines 45-51):
the downloaded clips are joined end to end with no transitions. -/
def concatSchedule (clips : List Clip) : List Segment :=
  (concatPlace 0 clips).1

/-- Total duration of the concatenation.py output: the final cursor of the
end-to-end placement. -/
def concatTotal (clips : List Clip) : ℚ :=
  (concatPlace 0 clips).2

/-- The taxonomy of failures the specification names for these scripts. -/
inductive PipelineError
  | invalidInput
  | unsupportedFrameSize
  | indexError
deriving DecidableEq, Repr

/-- concatenation.py `process_gcs_videos_concat_only` as a whole (lines
38-51): an empty downloaded-file list prints a warning and returns normally
producing no output (`.ok none`, lines 38-40); otherwise the end-to-end
plan is produced.  The `Except` codomain records that the source has no
raising branch on this path: the function never returns `.error`. -/
def processConcatOnly (clips : List Clip) : Except PipelineError (Option (List Segment × ℚ)) :=
  match clips with
  | [] => .ok none
  | c :: cs => .ok (some (concatSchedule (c :: cs), concatTotal (c :: cs)))

/-- One loop iteration of crossfade.py lines 59-69: the next clip is started
at `current_duration - TRANSITION_DURATION` and the running duration is
advanced by `clip.duration - TRANSITION_DURATION`.  No clamping of the
transition duration is performed anywhere in the script. -/
def crossfadeStep (T : ℚ) (acc : List Segment × ℚ) (c : Clip) : List Segment × ℚ :=
  (acc.1 ++ [⟨c, acc.2 - T⟩], acc.2 + (c.duration - T))

/-- crossfade.py `process_gcs_videos_with_crossfade` lines 52-73: the first
clip is placed at 0 and initializes `current_duration`; every further clip
goes through `crossfadeStep`.  Returns the composited segment list and the
final `current_duration` used by `set_duration`. -/
def crossfadeSchedule (T : ℚ) : List Clip → List Segment × ℚ
  | [] => ([], 0)
  | c :: rest => rest.foldl (crossfadeStep T) ([⟨c, 0⟩], c.duration)

/-- One loop iteration of slide.py lines 61-80: identical duration
arithmetic to the crossfade script (start at `current_duration -
TRANSITION_DURATION`, advance by `clip.duration - TRANSITION_DURATION`),
the slide affecting only the animated position of the clip. -/
def slideStep (T : ℚ) (acc : List Segment × ℚ) (c : Clip) : List Segment × ℚ :=
  (acc.1 ++ [⟨c, acc.2 - T⟩], acc.2 + (c.duration - T))

/-- slide.py `process_gcs_videos_with_slide` lines 53-85: first clip at 0,
then `slideStep` per clip; returns segments and final `current_duration`. -/
def slideSchedule (T : ℚ) : List Clip → List Segment × ℚ
  | [] => ([], 0)
  | c :: rest => rest.foldl (slideStep T) ([⟨c, 0⟩], c.duration)

/-- The animated horizontal position of a sliding clip, slide.py lines
67-73: during the transition the x offset moves linearly from the frame
width `w` down to 0 (centered); afterwards it holds at center. -/
def slidePosition (w T t : ℚ) : ℚ :=
  if t < T then w - (w / T) * t else 0

/-- One loop iteration of wipe.py lines 69-79: same duration arithmetic as
slide.py; the wipe affects only the animated mask of the clip. -/
def wipeStep (T : ℚ) (acc : List Segment × ℚ) (c : Clip) : List Segment × ℚ :=
  (acc.1 ++ [⟨c, acc.2 - T⟩], acc.2 + (c.duration - T))

/-- wipe.py `process_gcs_videos_with_wipe` lines 64-84: first clip at 0,
then `wipeStep` per clip; returns segments and final `current_duration`. -/
def wipeSchedule (T : ℚ) : List Clip → List Segment × ℚ
  | [] => ([], 0)
  | c :: rest => rest.foldl (wipeStep T) ([⟨c, 0⟩], c.duration)

/-- The composition plan a slide.py or wipe.py run hands to
`CompositeVideoClip(..., size=video_size).set_duration(...)`: the frame
size taken from the FIRST clip (slide.py line 50, wipe.py line 50), the
placed segments, and the total duration. -/
structure CompositePlan where
  frameW : ℕ
  frameH : ℕ
  segments : List Segment
  total : ℚ
deriving DecidableEq, Repr

/-- The plan slide.py builds from a nonempty clip list: frame size from the
first clip, segments and total from `slideSchedule`. -/
def slidePlan (T : ℚ) (c : Clip) (rest : List Clip) : CompositePlan :=
  ⟨c.width, c.height, (slideSchedule T (c :: rest)).1, (slideSchedule T (c :: rest)).2⟩

/-- slide.py `process_gcs_videos_with_slide` as a whole (lines 39-85): an
empty list returns normally with no output (lines 39-41); otherwise the
plan is built with the first clip's frame size.  The source contains no
frame-size validation of any kind, so no `.error` branch exists; the
`Except` codomain records that absence. -/
def slideProcess (T : ℚ) (clips : List Clip) : Except PipelineError (Option CompositePlan) :=
  match clips with
  | [] => .ok none
  | c :: rest => .ok (some (slidePlan T c rest))

/-- The plan wipe.py builds from a nonempty clip list: frame size from the
first clip, segments and total from `wipeSchedule`. -/
def wipePlan (T : ℚ) (c : Clip) (rest : List Clip) : CompositePlan :=
  ⟨c.width, c.height, (wipeSchedule T (c :: rest)).1, (wipeSchedule T (c :: rest)).2⟩

/-- wipe.py `process_gcs_videos_with_wipe` as a whole (lines 40-84): same
shape as `slideProcess` — the wipe mask (`create_wipe_mask`, lines 55-62)
is always built over the first clip's `video_size` and no frame-size
check or error exists in the source. -/
def wipeProcess (T : ℚ) (clips : List Clip) : Except PipelineError (Option CompositePlan) :=
  match clips with
  | [] => .ok none
  | c :: rest => .ok (some (wipePlan T c rest))

/-- The wipe mask reveal boundary of wipe.py lines 55-58: at local time `t`
the boundary sits at `int(w * (t / T))` pixels measured over the FIRST
clip's frame width. -/
def wipeMaskPos (w : ℕ) (T t : ℚ) : ℤ :=
  ⌊(w : ℚ) * (t / T)⌋

/-- fade-in-out.py `process_gcs_videos` lines 85-100: every clip except the
first gets `fadein` and every clip except the last gets `fadeout`; both
effects change opacity only and keep each clip's duration, and
`concatenate_videoclips(processed_clips, method="compose")` then places
the processed clips end to end with no temporal overlap.  The configured
`TRANSITION_DURATION` (0.2 s) therefore does not enter the duration
arithmetic at all. -/
def fadeInOutSchedule (clips : List Clip) : List Segment × ℚ :=
  concatPlace 0 clips

/-- blend.py helper for lines 53-56: each clip after the first is started at
`clips[i-1].duration - TRANSITION_DURATION`, i.e. relative to the PREVIOUS
clip's duration alone, with no clamping. -/
def blendSegsAux (T : ℚ) : Clip → List Clip → List Segment
  | _, [] => []
  | prev, c :: rest => ⟨c, prev.duration - T⟩ :: blendSegsAux T c rest

/-- blend.py `process_gcs_videos_with_blend` lines 39-63: an empty list
returns normally with no output (lines 39-41).  With exactly one clip the
rewrite of the last element at line 59 evaluates `clips[-2]`, which on a
one-element Python list raises an IndexError (`.error .indexError`).  With
two or more clips the first clip is placed at 0 and the rest through
`blendSegsAux`; line 59 then recomputes for the last clip exactly the
start the loop already assigned. -/
def blendProcess (T : ℚ) (clips : List Clip) : Except PipelineError (Option (List Segment)) :=
  match clips with
  | [] => .ok none
  | [_c] => .error .indexError
  | c0 :: c1 :: rest => .ok (some (⟨c0, 0⟩ :: blendSegsAux T c0 (c1 :: rest)))

/-- Duration of the ffmpeg xfade output of `stitch_two_videos` (xfade.py
lines 53-71): the second input starts at `offset = duration1 -
transition_duration`, so the stitched file lasts `offset + duration2`. -/
def stitchTwoDuration (d1 d2 T : ℚ) : ℚ :=
  (d1 - T) + d2

/-- The iterative stitching loop of xfade.py lines 100-109: the running
video is stitched with each next clip in turn, the running duration
updated through `stitchTwoDuration`. -/
def xfadeStitchFold (T : ℚ) : ℚ → List Clip → ℚ
  | d, [] => d
  | d, c :: rest => xfadeStitchFold T (stitchTwoDuration d c.duration T) rest

/-- xfade.py `main` lines 85-113: fewer than 2 listed videos prints
"Error: Found N videos. Need at least 2 to stitch." and RETURNS normally
(lines 87-89) — no exception is raised and no output is produced (`none`);
otherwise the clips are stitched iteratively and the final duration is the
fold of `stitchTwoDuration`. -/
def xfadeMain (T : ℚ) (clips : List Clip) : Option ℚ :=
  match clips with
  | [] => none
  | [_c] => none
  | c0 :: c1 :: rest => some (xfadeStitchFold T c0.duration (c1 :: rest))

/-- A classified response to one polling request in the loop of
veo2_interpolation.py lines 123-149: `done` absent or false (line 136),
`done` true with a generated-video uri (lines 129-135), `done` true but the
result extraction raising KeyError (line 142), or a transport-level
`requests.exceptions.RequestException` (line 139). -/
inductive PollResponse
  | pending
  | doneResult (uri : String)
  | doneError
  | transportError
deriving DecidableEq, Repr

/-- The terminal state of one Async Generation Job together with the number
of status requests issued before terminating. -/
inductive JobState
  | succeeded (resultHandle : String) (attemptCount : ℕ)
  | failed (attemptCount : ℕ)
  | timedOut (attemptCount : ℕ)
deriving DecidableEq, Repr

/-- veo2_interpolation.py line 116: `max_iterations = 600`, the ceiling on
polling attempts. -/
def MAX_ITERATIONS : ℕ := 600

/-- veo2_interpolation.py line 117: `interval_sec = 10`, the fixed wait in
seconds between consecutive status requests (`time.sleep(interval_sec)`,
line 149). -/
def POLL_INTERVAL_SEC : ℕ := 10

/-- The polling loop of veo2_interpolation.py lines 123-151, with the remote
service modelled as the function from the request index to its classified
response.  `fuel` is the remaining loop iterations, `attempts` the number of
requests already issued.  A done-with-result response returns the uri; a
KeyError or transport error breaks out of the loop immediately (lines
139-147), which the enclosing function turns into a failure return; fuel
exhaustion is the timeout of line 151. -/
def pollLoop (service : ℕ → PollResponse) : ℕ → ℕ → JobState
  | 0, attempts => .timedOut attempts
  | fuel + 1, attempts =>
    match service attempts with
    | .doneResult uri => .succeeded uri (attempts + 1)
    | .doneError => .failed (attempts + 1)
    | .transportError => .failed (attempts + 1)
    | .pending => pollLoop service fuel (attempts + 1)

/-- veo2_interpolation.py `interpolate_video_veo2` polling phase (lines
116-151): run the polling loop from zero attempts with the configured
ceiling of `MAX_ITERATIONS` requests. -/
def interpolateVideoVeo2 (service : ℕ → PollResponse) : JobState :=
  pollLoop service MAX_ITERATIONS 0

/-- The value `interpolate_video_veo2` actually returns: the generated
video's uri on success and `None` on every failure or timeout path. -/
def jobUri : JobState → Option String
  | .succeeded uri _ => some uri
  | .failed _ => none
  | .timedOut _ => none

/-- The number of status requests issued by a terminated job. -/
def attemptsOf : JobState → ℕ
  | .succeeded _ a => a
  | .failed a => a
  | .timedOut a => a

/-- True exactly on the two failure terminal states (Failed, TimedOut). -/
def isTerminalFailure : JobState → Bool
  | .succeeded _ _ => false
  | .failed _ => true
  | .timedOut _ => true

/-- The mock service of the polling test scenario: `done=false` for the
first five requests, then `done=true` with result `X`. -/
def mockServiceFiveThenDone (X : String) (k : ℕ) : PollResponse :=
  if k < 5 then .pending else .doneResult X

/-- The pair loop of veo2_interpolation.py `process_gcs_videos` lines
197-254: for each index `i` below `len(clips) - 1` the clip `clips[i]` is
appended, then the generated bridge clip for pair `i` is appended when the
interpolation succeeded; on failure the script prints a warning and
`continue`s, appending nothing (lines 233-235). -/
def veo2PairsAux (bridge : ℕ → Option Clip) : ℕ → List Clip → List Clip
  | _, [] => []
  | _, [_last] => []
  | i, a :: b :: rest =>
    (a :: (bridge i).toList) ++ veo2PairsAux bridge (i + 1) (b :: rest)

/-- The full final sequence of veo2_interpolation.py lines 197-257: the pair
loop output followed by the last clip (`final_sequence.append(clips[-1])`,
line 257). -/
def veo2Sequence (bridge : ℕ → Option Clip) (clips : List Clip) : List Clip :=
  match clips with
  | [] => []
  | c :: cs => veo2PairsAux bridge 0 (c :: cs) ++ [(c :: cs).getLast (List.cons_ne_nil c cs)]

/-- The sequence a pure Cut (no transition) produces for the same clips:
they are concatenated in order with nothing in between (concatenation.py
line 50). -/
def cutSequence (clips : List Clip) : List Clip :=
  clips

/-- The bridge insertion the veo2 pipeline computes for adjacent pair `i`:
the generated clip (its download and `speedx` step abstracted as
`transClip` on the returned uri) when the pair's job succeeded, and
nothing when the job ended Failed or TimedOut — lines 233-235 print a
warning and `continue`, skipping the transition for that pair only. -/
def veo2Bridge (service : ℕ → ℕ → PollResponse) (transClip : String → Clip)
    (i : ℕ) : Option Clip :=
  (jobUri (interpolateVideoVeo2 (service i))).map transClip

/-- The sub-sequence one adjacent pair contributes around its boundary in
the final sequence: the earlier clip, the inserted bridge clip when there
is one, then the later clip. -/
def pairPlan (bridge : Option Clip) (a b : Clip) : List Clip :=
  a :: (bridge.toList ++ [b])

/-- The same adjacent pair joined by a Cut: the two clips in order with
nothing spliced in between. -/
def cutPairPlan (a b : Clip) : List Clip :=
  [a, b]

/-- veo2_interpolation.py `process_gcs_videos` (lines 164-280), with one
polling service per adjacent pair and the downloading plus `speedx` step of
lines 237-254 abstracted as `transClip` on the returned uri.  An empty
download list returns normally with no output (lines 186-188).  All
exceptions of the body are caught by the `except Exception` handler at line
276, so the function never re-raises; the `Except` codomain records that no
`.error` is ever returned. -/
def processGcsVideosVeo2 (service : ℕ → ℕ → PollResponse) (transClip : String → Clip)
    (clips : List Clip) : Except PipelineError (Option (List Clip)) :=
  match clips with
  | [] => .ok none
  | c :: cs =>
    .ok (some (veo2Sequence (veo2Bridge service transClip) (c :: cs)))

/-- The local filesystem state the scripts touch: whether the
`tempfile.mkdtemp` directory still exists and which files live inside it
(every local file any script writes goes into that directory). -/
structure LocalFs where
  tempDirExists : Bool
  tempFiles : List String
deriving DecidableEq, Repr

/-- `tempfile.mkdtemp()`: a fresh empty temporary directory. -/
def mkdtemp : LocalFs :=
  ⟨true, []⟩

/-- `shutil.rmtree(local_temp_dir)`: the directory and everything inside it
is removed. -/
def rmtreeTemp (_s : LocalFs) : LocalFs :=
  ⟨false, []⟩

/-- concatenation.py line 11: the name of the final output file written
into the temporary directory. -/
def FINAL_VIDEO_NAME : String := "concatenated_video_no_transition.mp4"

/-- One body step of a pipeline run: downloading an input into the temp
directory (concatenation.py line 35, xfade.py line 97), writing an output
or intermediate file there (concatenation.py line 54, xfade.py line 104),
or uploading a file (no local change). -/
inductive FsStep
  | download (name : String)
  | writeTemp (name : String)
  | upload
deriving DecidableEq, Repr

/-- Effect of one body step on the local filesystem. -/
def runFsStep (s : LocalFs) : FsStep → LocalFs
  | .download n => ⟨s.tempDirExists, n :: s.tempFiles⟩
  | .writeTemp n => ⟨s.tempDirExists, n :: s.tempFiles⟩
  | .upload => s

/-- The body steps of a concatenation.py run over the given input names:
download each input, write the final video, upload it. -/
def concatBodySteps (inputs : List String) : List FsStep :=
  inputs.map FsStep.download ++ [FsStep.writeTemp FINAL_VIDEO_NAME, FsStep.upload]

/-- Execution of the try-block body with an injected failure point: when
`failAfter = some k`, an exception is raised after the first `k` steps
executed and the remaining steps never run (a raised Python exception does
not roll the filesystem back); `none` is the run with no exception. -/
def runBody (failAfter : Option ℕ) (steps : List FsStep) (s : LocalFs) : LocalFs :=
  match failAfter with
  | none => steps.foldl runFsStep s
  | some k => (steps.take k).foldl runFsStep s

/-- concatenation.py `process_gcs_videos_concat_only` resource structure
(lines 18-72): `mkdtemp`, then the try body (possibly raising, the
exception swallowed by the `except` at line 65), then the `finally` block
at lines 68-72 removing the directory when it still exists. -/
def processConcatCleanup (inputs : List String) (failAfter : Option ℕ) : LocalFs :=
  let s := runBody failAfter (concatBodySteps inputs) mkdtemp
  if s.tempDirExists then rmtreeTemp s else s

/-- veo2_interpolation.py `process_gcs_videos` resource structure (lines
166-280): same shape but the `finally` at lines 278-280 calls
`shutil.rmtree` unconditionally. -/
def processVeo2Cleanup (inputs : List String) (failAfter : Option ℕ) : LocalFs :=
  rmtreeTemp (runBody failAfter (concatBodySteps inputs) mkdtemp)

/-- xfade.py body steps inside the TemporaryDirectory block (lines
97-117): download every listed input (line 97), write one intermediate
stitched file temp_stitch_i.mp4 into the directory per later input (lines
101-109), then upload the final stitched file (line 117, no local
change). -/
def xfadeBodySteps (inputs : List String) : List FsStep :=
  inputs.map FsStep.download
    ++ (List.range (inputs.length - 1)).map
        (fun i => FsStep.writeTemp ("temp_stitch_" ++ toString (i + 1) ++ ".mp4"))
    ++ [FsStep.upload]

/-- xfade.py `main` resource structure (lines 93-119): the body runs
inside `with tempfile.TemporaryDirectory() as temp_dir`.  On leaving the
block — normal completion or an exception unwinding out of `main`, which
has no except handler — the context manager removes the directory and
everything inside it before control leaves the function, exactly like an
unconditional finally-rmtree. -/
def processXfadeCleanup (inputs : List String) (failAfter : Option ℕ) : LocalFs :=
  rmtreeTemp (runBody failAfter (xfadeBodySteps inputs) mkdtemp)

/-- A 5 second 1920 x 1080 clip used as a concrete input. -/
def clipA5 : Clip := ⟨"a.mp4", 5, 1920, 1080⟩

/-- A second 5 second 1920 x 1080 clip used as a concrete input. -/
def clipB5 : Clip := ⟨"b.mp4", 5, 1920, 1080⟩

/-- A 1 second clip, the earlier clip of the overlap-clamping scenario. -/
def clipOneSec : Clip := ⟨"c.mp4", 1, 1920, 1080⟩

/-- A half second clip, the later clip driving the total negative. -/
def clipHalfSec : Clip := ⟨"d.mp4", 1/2, 1920, 1080⟩

/-- A 5 second clip with a DIFFERENT frame size (1280 x 720). -/
def clipSD : Clip := ⟨"e.mp4", 5, 1280, 720⟩

/-! Helper lemmas. -/

theorem concatPlace_total (cs : List Clip) : ∀ t : ℚ, (concatPlace t cs).2 = t + durSum cs := by
  induction cs with
  | nil => intro t; simp [concatPlace, durSum]
  | cons c cs ih =>
    intro t
    simp only [concatPlace]
    rw [ih]
    simp [durSum]
    ring

theorem concatPlace_start_ge (cs : List Clip) (hpos : ∀ c ∈ cs, 0 ≤ c.duration) :
    ∀ t : ℚ, ∀ s ∈ (concatPlace t cs).1, t ≤ s.start := by
  induction cs with
  | nil => intro t s hs; simp [concatPlace] at hs
  | cons c cs ih =>
    intro t s hs
    simp only [concatPlace, List.mem_cons] at hs
    rcases hs with rfl | hs
    · exact le_refl t
    · have hc : 0 ≤ c.duration := hpos c (List.mem_cons_self c cs)
      have h1 := ih (fun x hx => hpos x (List.mem_cons_of_mem _ hx)) (t + c.duration) s hs
      linarith

theorem concatPlace_pairwise (cs : List Clip) (hpos : ∀ c ∈ cs, 0 < c.duration) :
    ∀ t : ℚ,
      List.Pairwise (fun s1 s2 => s1.start + s1.clip.duration ≤ s2.start) (concatPlace t cs).1 := by
  induction cs with
  | nil => intro t; simp [concatPlace]
  | cons c cs ih =>
    intro t
    have hpos' : ∀ x ∈ cs, 0 < x.duration := fun x hx => hpos x (List.mem_cons_of_mem _ hx)
    simp only [concatPlace]
    refine List.Pairwise.cons ?_ (ih hpos' (t + c.duration))
    intro s hs
    have h1 := concatPlace_start_ge cs (fun x hx => le_of_lt (hpos' x hx)) (t + c.duration) s hs
    simpa using h1

theorem crossfade_foldl_total (T : ℚ) (rest : List Clip) :
    ∀ (segs : List Segment) (t : ℚ),
      (rest.foldl (crossfadeStep T) (segs, t)).2 = t + durSum rest - (rest.length : ℚ) * T := by
  induction rest with
  | nil => intro segs t; simp [durSum]
  | cons c cs ih =>
    intro segs t
    simp only [List.foldl_cons, crossfadeStep]
    rw [ih]
    simp [durSum]
    ring

theorem pollLoop_attempts_le (service : ℕ → PollResponse) :
    ∀ (fuel a : ℕ), attemptsOf (pollLoop service fuel a) ≤ a + fuel := by
  intro fuel
  induction fuel with
  | zero => intro a; simp [pollLoop, attemptsOf]
  | succ f ih =>
    intro a
    cases h : service a with
    | pending =>
      have h2 := ih (a + 1)
      simp only [pollLoop, h]
      omega
    | doneResult uri => simp [pollLoop, h, attemptsOf]
    | doneError => simp [pollLoop, h, attemptsOf]
    | transportError => simp [pollLoop, h, attemptsOf]

theorem pollLoop_reaches_done (service : ℕ → PollResponse) (X : String) :
    ∀ (m fuel a : ℕ), m < fuel →
      (∀ k, k < m → service (a + k) = .pending) →
      service (a + m) = .doneResult X →
      pollLoop service fuel a = .succeeded X (a + m + 1) := by
  intro m
  induction m with
  | zero =>
    intro fuel a hf _hp he
    obtain ⟨f, rfl⟩ : ∃ f, fuel = f + 1 := ⟨fuel - 1, by omega⟩
    have he0 : service a = .doneResult X := by simpa using he
    simp [pollLoop, he0]
  | succ m ih =>
    intro fuel a hf hp he
    obtain ⟨f, rfl⟩ : ∃ f, fuel = f + 1 := ⟨fuel - 1, by omega⟩
    have h0 : service a = .pending := by simpa using hp 0 (Nat.succ_pos m)
    have e1 : ∀ k, k < m → service (a + 1 + k) = .pending := by
      intro k hk
      have h2 := hp (k + 1) (by omega)
      have e : a + (k + 1) = a + 1 + k := by omega
      rwa [e] at h2
    have e2 : service (a + 1 + m) = .doneResult X := by
      have e : a + (m + 1) = a + 1 + m := by omega
      rwa [e] at he
    have h3 := ih f (a + 1) (by omega) e1 e2
    simp only [pollLoop, h0]
    rw [h3]
    congr 1
    omega

theorem pollLoop_transport_fails (service : ℕ → PollResponse) :
    ∀ (m fuel a : ℕ), m < fuel →
      (∀ k, k < m → service (a + k) = .pending) →
      service (a + m) = .transportError →
      pollLoop service fuel a = .failed (a + m + 1) := by
  intro m
  induction m with
  | zero =>
    intro fuel a hf _hp he
    obtain ⟨f, rfl⟩ : ∃ f, fuel = f + 1 := ⟨fuel - 1, by omega⟩
    have he0 : service a = .transportError := by simpa using he
    simp [pollLoop, he0]
  | succ m ih =>
    intro fuel a hf hp he
    obtain ⟨f, rfl⟩ : ∃ f, fuel = f + 1 := ⟨fuel - 1, by omega⟩
    have h0 : service a = .pending := by simpa using hp 0 (Nat.succ_pos m)
    have e1 : ∀ k, k < m → service (a + 1 + k) = .pending := by
      intro k hk
      have h2 := hp (k + 1) (by omega)
      have e : a + (k + 1) = a + 1 + k := by omega
      rwa [e] at h2
    have e2 : service (a + 1 + m) = .transportError := by
      have e : a + (m + 1) = a + 1 + m := by omega
      rwa [e] at he
    have h3 := ih f (a + 1) (by omega) e1 e2
    simp only [pollLoop, h0]
    rw [h3]
    congr 1
    omega

theorem veo2PairsAux_none (bridge : ℕ → Option Clip) (hb : ∀ j, bridge j = none) :
    ∀ (cs : List Clip) (i : ℕ) (c : Clip),
      veo2PairsAux bridge i (c :: cs) ++ [(c :: cs).getLast (List.cons_ne_nil c cs)] = c :: cs := by
  intro cs
  induction cs with
  | nil => intro i c; simp [veo2PairsAux]
  | cons b rest ih =>
    intro i c
    have hgl : (c :: b :: rest).getLast (List.cons_ne_nil c (b :: rest))
        = (b :: rest).getLast (List.cons_ne_nil b rest) := List.getLast_cons _
    simp only [veo2PairsAux, hb, Option.toList_none, List.cons_append, List.nil_append, hgl]
    exact congrArg (List.cons c) (ih (i + 1) b)

theorem runFsStep_dir (s : LocalFs) (st : FsStep) :
    (runFsStep s st).tempDirExists = s.tempDirExists := by
  cases st <;> rfl

theorem foldl_runFsStep_dir (steps : List FsStep) :
    ∀ s : LocalFs, (steps.foldl runFsStep s).tempDirExists = s.tempDirExists := by
  induction steps with
  | nil => intro s; rfl
  | cons st rest ih => intro s; rw [List.foldl_cons, ih, runFsStep_dir]

theorem runBody_dir (failAfter : Option ℕ) (steps : List FsStep) :
    (runBody failAfter steps mkdtemp).tempDirExists = true := by
  cases failAfter with
  | none => simpa [runBody] using foldl_runFsStep_dir steps mkdtemp
  | some k => simpa [runBody] using foldl_runFsStep_dir (steps.take k) mkdtemp

/-! Claim theorems. -/

/-- C1 counterexample: two 5 second clips with fade transition duration
1/5 (which is at most every clip duration).  fade-in-out.py concatenates
the faded clips with no temporal overlap, so the code's total duration is
10, not the claimed sum minus (N-1) times d, which would be 49/5. -/
theorem fade_total_counterexample :
    ((1/5 : ℚ) ≤ clipA5.duration ∧ (1/5 : ℚ) ≤ clipB5.duration)
    ∧ (fadeInOutSchedule [clipA5, clipB5]).2 = 10
    ∧ durSum [clipA5, clipB5] - ((([clipA5, clipB5] : List Clip).length - 1 : ℕ) : ℚ) * (1/5)
        = 49/5
    ∧ (fadeInOutSchedule [clipA5, clipB5]).2
        ≠ durSum [clipA5, clipB5]
          - ((([clipA5, clipB5] : List Clip).length - 1 : ℕ) : ℚ) * (1/5) := by
  have h1 : (fadeInOutSchedule [clipA5, clipB5]).2 = 10 := by
    norm_num [fadeInOutSchedule, concatPlace, clipA5, clipB5]
  have h2 : durSum [clipA5, clipB5]
      - ((([clipA5, clipB5] : List Clip).length - 1 : ℕ) : ℚ) * (1/5) = 49/5 := by
    norm_num [durSum, clipA5, clipB5]
  refine ⟨⟨by norm_num [clipA5], by norm_num [clipB5]⟩, h1, h2, ?_⟩
  rw [h1, h2]
  norm_num

/-- C1 (amended): for N clips (N at least 2) joined by N-1 identical
transitions of duration T with T at most every clip's duration, the
crossfade, slide and wipe pipelines all produce total duration
sum of durations minus (N-1) times T; the fade pipeline
(fade-in-out.py) concatenates the faded clips with no overlap, so its
total equals the plain sum of durations. -/
theorem overlap_transition_total_durations (T : ℚ) (clips : List Clip)
    (h2 : 2 ≤ clips.length) (hT : ∀ c ∈ clips, T ≤ c.duration) :
    (crossfadeSchedule T clips).2 = durSum clips - ((clips.length - 1 : ℕ) : ℚ) * T
    ∧ (slideSchedule T clips).2 = durSum clips - ((clips.length - 1 : ℕ) : ℚ) * T
    ∧ (wipeSchedule T clips).2 = durSum clips - ((clips.length - 1 : ℕ) : ℚ) * T
    ∧ (fadeInOutSchedule clips).2 = durSum clips := by
  obtain ⟨c, cs, rfl⟩ : ∃ c cs, clips = c :: cs := by
    cases clips with
    | nil => simp at h2
    | cons c cs => exact ⟨c, cs, rfl⟩
  have hstep_s : slideStep = crossfadeStep := rfl
  have hstep_w : wipeStep = crossfadeStep := rfl
  have hmain : (crossfadeSchedule T (c :: cs)).2
      = durSum (c :: cs) - (((c :: cs).length - 1 : ℕ) : ℚ) * T := by
    simp only [crossfadeSchedule]
    rw [crossfade_foldl_total]
    simp [durSum]
  refine ⟨hmain, ?_, ?_, ?_⟩
  · simpa only [slideSchedule, hstep_s, crossfadeSchedule] using hmain
  · simpa only [wipeSchedule, hstep_w, crossfadeSchedule] using hmain
  · simpa [fadeInOutSchedule] using concatPlace_total (c :: cs) 0

/-- Witness for overlap_transition_total_durations: T = 1/5 over two
5 second clips, where 1/5 is at most each duration. -/
theorem overlap_transition_total_witness :
    (2 ≤ ([clipA5, clipB5] : List Clip).length
      ∧ ∀ c ∈ ([clipA5, clipB5] : List Clip), (1/5 : ℚ) ≤ c.duration)
    ∧ (crossfadeSchedule (1/5) [clipA5, clipB5]).2
        = durSum [clipA5, clipB5]
          - ((([clipA5, clipB5] : List Clip).length - 1 : ℕ) : ℚ) * (1/5) :=
  ⟨⟨by decide, by norm_num [clipA5, clipB5]⟩,
    (overlap_transition_total_durations (1/5) [clipA5, clipB5] (by decide)
      (by norm_num [clipA5, clipB5])).1⟩

/-- C2 counterexample: with a requested transition duration of 2 s and an
earlier clip of 1 s, crossfade.py starts the later clip at -1 (no
clamping), the realized overlap is the full requested 2 s rather than
min(2, 1, 1) = 1, and with a later clip of 1/2 s the total duration is
-1/2, which is negative. -/
theorem overlap_clamping_counterexample :
    (crossfadeSchedule 2 [clipOneSec, clipOneSec]).1 = [⟨clipOneSec, 0⟩, ⟨clipOneSec, -1⟩]
    ∧ segOverlap ⟨clipOneSec, 0⟩ ⟨clipOneSec, -1⟩ = 2
    ∧ min 2 (min clipOneSec.duration clipOneSec.duration) = 1
    ∧ (2 : ℚ) ≠ 1
    ∧ (crossfadeSchedule 2 [clipOneSec, clipHalfSec]).2 = -(1/2)
    ∧ (crossfadeSchedule 2 [clipOneSec, clipHalfSec]).2 < 0 := by
  have h5 : (crossfadeSchedule 2 [clipOneSec, clipHalfSec]).2 = -(1/2) := by
    norm_num [crossfadeSchedule, crossfadeStep, clipOneSec, clipHalfSec]
  refine ⟨?_, ?_, ?_, by norm_num, h5, by rw [h5]; norm_num⟩
  · norm_num [crossfadeSchedule, crossfadeStep, clipOneSec]
  · norm_num [segOverlap, clipOneSec]
  · norm_num [clipOneSec]

/-- C2 (amended): the scripts apply the requested transition duration
without any clamping: for any adjacent pair the later clip starts exactly
at the earlier clip's accumulated end minus the full requested T (even
when that is negative), the realized overlap equals the requested T (not
the minimum with the clip durations), the total is the sum minus T, and
blend.py uses the same unclamped arithmetic.  No warning path exists in
the source. -/
theorem crossfade_no_overlap_clamping (T : ℚ) (a b : Clip) :
    crossfadeSchedule T [a, b]
      = ([⟨a, 0⟩, ⟨b, a.duration - T⟩], a.duration + (b.duration - T))
    ∧ segOverlap ⟨a, 0⟩ ⟨b, a.duration - T⟩ = T
    ∧ blendProcess T [a, b] = .ok (some [⟨a, 0⟩, ⟨b, a.duration - T⟩]) := by
  refine ⟨rfl, ?_, rfl⟩
  simp [segOverlap]

/-- C3: for every adjacent pair `i` whose Async Generation Job ends in
Failed or TimedOut — in any run, whatever the other pairs' jobs do — the
veo2 pipeline inserts nothing for that pair: the pair's contributed plan
equals the Cut pair plan for the same two clips, the full run output is
identical to the output of the run in which pair `i`'s transition is
forced to a Cut (other pairs untouched), the run returns normally (no
exception is ever re-raised), and the failing pair's job issued at most
the MAX_ITERATIONS = 600 ceiling of status requests. -/
theorem ai_bridge_failure_degrades_to_cut
    (service : ℕ → ℕ → PollResponse) (transClip : String → Clip)
    (clips : List Clip) (i : ℕ)
    (hfail : isTerminalFailure (interpolateVideoVeo2 (service i)) = true) :
    (∀ a b : Clip, pairPlan (veo2Bridge service transClip i) a b = cutPairPlan a b)
    ∧ veo2Sequence (veo2Bridge service transClip) clips
        = veo2Sequence
            (fun j => if j = i then none else veo2Bridge service transClip j) clips
    ∧ (∃ out, processGcsVideosVeo2 service transClip clips = Except.ok out)
    ∧ attemptsOf (interpolateVideoVeo2 (service i)) ≤ MAX_ITERATIONS
    ∧ MAX_ITERATIONS = 600 := by
  have hbridge : veo2Bridge service transClip i = none := by
    unfold veo2Bridge
    cases h : interpolateVideoVeo2 (service i) with
    | succeeded uri a => rw [h] at hfail; simp [isTerminalFailure] at hfail
    | failed a => simp [jobUri]
    | timedOut a => simp [jobUri]
  refine ⟨?_, ?_, ?_, ?_, rfl⟩
  · intro a b
    simp [pairPlan, cutPairPlan, hbridge]
  · have hfun : (fun j => if j = i then none else veo2Bridge service transClip j)
        = veo2Bridge service transClip := by
      funext j
      by_cases hj : j = i
      · subst hj; simp [hbridge]
      · simp [hj]
    rw [hfun]
  · cases clips with
    | nil => exact ⟨none, rfl⟩
    | cons c cs =>
      exact ⟨some (veo2Sequence (veo2Bridge service transClip) (c :: cs)), rfl⟩
  · have h1 := pollLoop_attempts_le (service i) MAX_ITERATIONS 0
    simpa [interpolateVideoVeo2] using h1

/-- A service whose every poll raises a transport error drives the job to
Failed after a single request. -/
theorem interpolate_all_transport_failed :
    interpolateVideoVeo2 (fun _ => PollResponse.transportError) = .failed 1 := by
  have h := pollLoop_transport_fails (fun _ => PollResponse.transportError) 0 MAX_ITERATIONS 0
    (by decide) (fun k hk => absurd hk (Nat.not_lt_zero k)) rfl
  simpa [interpolateVideoVeo2] using h

/-- Witness for ai_bridge_failure_degrades_to_cut: pair 0 polled against a
service whose every request raises a transport error terminates Failed,
and the concrete two-clip run's output is unchanged by forcing that
pair's transition to a Cut. -/
theorem ai_bridge_failure_witness :
    isTerminalFailure (interpolateVideoVeo2 (fun _ => PollResponse.transportError)) = true
    ∧ veo2Sequence
        (veo2Bridge (fun _ _ => PollResponse.transportError) (fun _ => clipA5))
        [clipA5, clipB5]
      = veo2Sequence
          (fun j => if j = 0 then none
            else veo2Bridge (fun _ _ => PollResponse.transportError) (fun _ => clipA5) j)
          [clipA5, clipB5] := by
  have hone : isTerminalFailure (interpolateVideoVeo2
      (fun _ => PollResponse.transportError)) = true := by
    rw [interpolate_all_transport_failed]
    rfl
  exact ⟨hone,
    (ai_bridge_failure_degrades_to_cut (fun _ _ => PollResponse.transportError)
      (fun _ => clipA5) [clipA5, clipB5] 0 hone).2.1⟩

/-- C4: against a service reporting done=false for exactly 5 polls and
then done=true with result X, the job terminates Succeeded with
resultHandle X and attemptCount 6, the status requests being issued once
per fixed polling interval whose default is 10 seconds. -/
theorem polling_succeeds_after_five_pending (X : String) :
    interpolateVideoVeo2 (mockServiceFiveThenDone X) = .succeeded X 6
    ∧ POLL_INTERVAL_SEC = 10 := by
  refine ⟨?_, rfl⟩
  have h := pollLoop_reaches_done (mockServiceFiveThenDone X) X 5 MAX_ITERATIONS 0
    (by decide) (fun k hk => by simp [mockServiceFiveThenDone, hk])
    (by simp [mockServiceFiveThenDone])
  simpa [interpolateVideoVeo2] using h

/-- C5: a transport-level error on the (j+1)-th status request (after j
pending responses) terminates the job Failed immediately: exactly j+1
requests were issued and no further one follows the error. -/
theorem transport_error_fails_immediately (service : ℕ → PollResponse) (j : ℕ)
    (hj : j < MAX_ITERATIONS)
    (hpend : ∀ k, k < j → service k = .pending)
    (herr : service j = .transportError) :
    interpolateVideoVeo2 service = .failed (j + 1)
    ∧ attemptsOf (interpolateVideoVeo2 service) = j + 1 := by
  have h := pollLoop_transport_fails service j MAX_ITERATIONS 0 hj
    (fun k hk => by simpa using hpend k hk) (by simpa using herr)
  have h2 : interpolateVideoVeo2 service = .failed (j + 1) := by
    simpa [interpolateVideoVeo2] using h
  exact ⟨h2, by rw [h2]; rfl⟩

/-- Witness for transport_error_fails_immediately: the service failing on
the very first request; the job is Failed after exactly one request. -/
theorem transport_error_witness :
    (0 < MAX_ITERATIONS
      ∧ (fun _ : ℕ => PollResponse.transportError) 0 = PollResponse.transportError)
    ∧ interpolateVideoVeo2 (fun _ => PollResponse.transportError) = .failed 1 :=
  ⟨⟨by decide, rfl⟩,
    (transport_error_fails_immediately (fun _ => PollResponse.transportError) 0 (by decide)
      (fun k hk => absurd hk (Nat.not_lt_zero k)) rfl).1⟩

/-- C6 counterexample: on an empty clip list concatenation.py returns
normally with no output (and xfade.py main, with its default transition
duration 0.6, likewise returns early), rather than failing with an
InvalidInput error. -/
theorem empty_clip_list_counterexample :
    processConcatOnly [] = .ok none
    ∧ processConcatOnly [] ≠ Except.error PipelineError.invalidInput
    ∧ xfadeMain (3/5) [] = none := by
  refine ⟨rfl, ?_, rfl⟩
  intro h
  simp [processConcatOnly] at h

/-- C6 (amended): an empty clip list is detected and reported with a
printed message, after which the pipelines return normally producing no
output; no InvalidInput error (nor any other exception) is raised and the
run is not aborted abnormally. -/
theorem empty_clip_list_returns_normally :
    processConcatOnly [] = .ok none
    ∧ (∀ T : ℚ, xfadeMain T [] = none)
    ∧ (∀ T : ℚ, slideProcess T [] = .ok none)
    ∧ (∀ e : PipelineError, processConcatOnly [] ≠ Except.error e) := by
  refine ⟨rfl, fun _ => rfl, fun _ => rfl, fun e h => ?_⟩
  simp [processConcatOnly] at h

/-- C7 counterexample: on a single clip, blend.py raises an IndexError
(evaluating clips[-2] on a one-element list) and xfade.py main returns
early with an error message and no output; neither yields a one-segment
plan. -/
theorem single_clip_counterexample :
    blendProcess (3/2) [clipA5] = .error .indexError
    ∧ xfadeMain (3/5) [clipA5] = none :=
  ⟨rfl, rfl⟩

/-- C7 (amended): a single-clip input yields a one-segment plan with no
transitions in the concatenation and crossfade pipelines (the slide, wipe
and fade pipelines behave the same way), but xfade.py main rejects fewer
than two clips with a printed error and an early return producing no
output, and blend.py raises an IndexError on a single clip. -/
theorem single_clip_behavior_by_pipeline (c : Clip) (T : ℚ) :
    processConcatOnly [c] = .ok (some ([⟨c, 0⟩], c.duration))
    ∧ crossfadeSchedule T [c] = ([⟨c, 0⟩], c.duration)
    ∧ xfadeMain T [c] = none
    ∧ blendProcess T [c] = .error .indexError := by
  refine ⟨?_, rfl, rfl, rfl⟩
  simp [processConcatOnly, concatSchedule, concatTotal, concatPlace]

/-- C8: for clips of positive duration joined with no transitions
(concatenation.py), the total plan duration is the sum of the clip
durations and no two placed segments overlap: every earlier segment ends
no later than every later segment starts. -/
theorem cut_concatenation_total_and_disjoint (clips : List Clip)
    (hpos : ∀ c ∈ clips, 0 < c.duration) :
    concatTotal clips = durSum clips
    ∧ List.Pairwise (fun s1 s2 => s1.start + s1.clip.duration ≤ s2.start)
        (concatSchedule clips) := by
  constructor
  · simpa [concatTotal] using concatPlace_total clips 0
  · exact concatPlace_pairwise clips hpos 0

/-- Witness for cut_concatenation_total_and_disjoint on two concrete
5 second clips. -/
theorem cut_concatenation_witness :
    (∀ c ∈ ([clipA5, clipB5] : List Clip), 0 < c.duration)
    ∧ (concatTotal [clipA5, clipB5] = durSum [clipA5, clipB5]
       ∧ List.Pairwise (fun s1 s2 => s1.start + s1.clip.duration ≤ s2.start)
           (concatSchedule [clipA5, clipB5])) :=
  ⟨by decide, cut_concatenation_total_and_disjoint [clipA5, clipB5] (by decide)⟩

/-- C9 counterexample: a 1920 x 1080 clip followed by a 1280 x 720 clip —
the frame sizes differ, yet both slide.py and wipe.py succeed without any
UnsupportedFrameSize error, silently compositing at the first clip's
frame size. -/
theorem frame_size_mismatch_counterexample :
    (clipA5.width, clipA5.height) ≠ (clipSD.width, clipSD.height)
    ∧ slideProcess 2 [clipA5, clipSD] = .ok (some (slidePlan 2 clipA5 [clipSD]))
    ∧ wipeProcess 1 [clipA5, clipSD] = .ok (some (wipePlan 1 clipA5 [clipSD]))
    ∧ (slidePlan 2 clipA5 [clipSD]).frameW = 1920
    ∧ (wipePlan 1 clipA5 [clipSD]).frameW = 1920
    ∧ slideProcess 2 [clipA5, clipSD] ≠ Except.error PipelineError.unsupportedFrameSize
    ∧ wipeProcess 1 [clipA5, clipSD] ≠ Except.error PipelineError.unsupportedFrameSize := by
  refine ⟨by decide, rfl, rfl, by decide, by decide, ?_, ?_⟩ <;>
    · intro h
      simp [slideProcess, wipeProcess] at h

/-- C9 (amended): the slide and wipe pipelines perform no frame-size
validation at all: they never fail with UnsupportedFrameSize (or any other
error) for any input, and for every nonempty input they succeed with a
plan whose frame size is taken from the first clip alone, mismatched later
clips being composited into that frame silently. -/
theorem slide_wipe_no_frame_size_check (T : ℚ) (clips : List Clip) (c : Clip)
    (rest : List Clip) :
    slideProcess T clips ≠ Except.error PipelineError.unsupportedFrameSize
    ∧ wipeProcess T clips ≠ Except.error PipelineError.unsupportedFrameSize
    ∧ slideProcess T (c :: rest) = .ok (some (slidePlan T c rest))
    ∧ (slidePlan T c rest).frameW = c.width ∧ (slidePlan T c rest).frameH = c.height
    ∧ wipeProcess T (c :: rest) = .ok (some (wipePlan T c rest))
    ∧ (wipePlan T c rest).frameW = c.width ∧ (wipePlan T c rest).frameH = c.height := by
  refine ⟨?_, ?_, rfl, rfl, rfl, rfl, rfl, rfl⟩ <;>
    · cases clips with
      | nil => intro h; simp [slideProcess, wipeProcess] at h
      | cons a l => intro h; simp [slideProcess, wipeProcess] at h

/-- C10: whichever step an exception is injected after (or none), all
three cleanup structures of the repository — concatenation.py's finally
with an existence check, veo2_interpolation.py's unconditional finally
rmtree, and xfade.py's TemporaryDirectory context manager — leave the
temporary directory removed and no local files surviving the run. -/
theorem temp_dir_removed_on_all_paths (inputs : List String) (failAfter : Option ℕ) :
    (processConcatCleanup inputs failAfter).tempDirExists = false
    ∧ (processConcatCleanup inputs failAfter).tempFiles = []
    ∧ (processVeo2Cleanup inputs failAfter).tempDirExists = false
    ∧ (processVeo2Cleanup inputs failAfter).tempFiles = []
    ∧ (processXfadeCleanup inputs failAfter).tempDirExists = false
    ∧ (processXfadeCleanup inputs failAfter).tempFiles = [] := by
  have hd := runBody_dir failAfter (concatBodySteps inputs)
  refine ⟨?_, ?_, rfl, rfl, rfl, rfl⟩ <;> simp [processConcatCleanup, hd, rmtreeTemp]
